import Mathlib

/-!
Verification of the storage-backend abstraction layer of glance
(`glance/store/__init__.py`): a shallow embedding of the location-list
proxy, the backend dispatch helpers, the delayed-delete scheduler, the
metadata validator and the store registry, together with theorems that
settle the specification claims about them.

Conventions of the embedding:
* Python exceptions become the inductive `PyExc`; raising code returns
  `Except PyExc _`.
* Stateful methods of the `StoreLocations` proxy become pure functions
  that take the current list and return the pair
  (raised-or-returned outcome, list after the call).
* Python list indices are `Int`, with Python semantics for negative
  indices and out-of-range behaviour reproduced explicitly.
* Backend drivers and other per-URI collaborators are abstracted as
  function-valued environment records, since the individual drivers are
  out of scope of the spec.
-/

set_option autoImplicit false

namespace GlanceStore

/-- Modelled from the spec: the exception classes live in
`glance.common.exception`, which is outside the sources at hand; section 7
of the spec lists the failure kinds as a flat taxonomy (UnknownSchemeError,
not-found, delete-not-supported, bad-location, duplicate-schedule,
invalid-state, backend error), so they are embedded as distinct
constructors with no subclass relations between them.  Message strings are
kept where the format is simple; Python repr output is abstracted. -/
inductive PyExc where
  | UnknownScheme (scheme : String)
  | NotFound (msg : String)
  | StoreDeleteNotSupported
  | BadStoreUri (msg : String)
  | Invalid (msg : String)
  | Duplicate (msg : String)
  | BackendException (msg : String)
  | UnsupportedBackend
  | Other (msg : String)
deriving DecidableEq, Repr

/-- A stored location record `{url, metadata}` as attached to an image.
The per-location metadata mapping is embedded shallowly as string pairs;
equality is value equality, matching Python dict comparison. -/
structure LocationRecord where
  url : String
  metadata : List (String × String)
deriving DecidableEq, Repr

/-- Python `list.pop` at a non-negative position: returns the removed
element and the remaining list, or `none` for an out-of-range position
(Python raises IndexError). -/
def popAt {α : Type} : List α → Nat → Option (α × List α)
  | [], _ => none
  | a :: l, 0 => some (a, l)
  | a :: l, n + 1 => (popAt l n).map (fun p => (p.1, a :: p.2))

/-- Python `list.insert` at a non-negative position (positions past the
end append, as in Python). -/
def insertAt {α : Type} : List α → Nat → α → List α
  | l, 0, x => x :: l
  | [], _ + 1, x => [x]
  | a :: l, n + 1, x => a :: insertAt l n x

/-- Python `list.pop(i)` with full Python index semantics: a negative `i`
counts from the end; an out-of-range index is an IndexError (`none`). -/
def pyPop {α : Type} (l : List α) (i : Int) : Option (α × List α) :=
  let n : Int := l.length
  let j : Int := if i < 0 then i + n else i
  if j < 0 ∨ n ≤ j then none else popAt l j.toNat

/-- Python `list.insert(i, x)` with full Python index semantics: a
negative `i` counts from the end and is clamped at 0, an `i` past the end
appends. -/
def pyInsert {α : Type} (l : List α) (i : Int) (x : α) : List α :=
  let n : Int := l.length
  insertAt l (if i < 0 then (i + n).toNat else i.toNat) x

/-- Python index normalisation for item assignment: `some j` when the
index is in range, `none` for IndexError. -/
def pyIndex {α : Type} (l : List α) (i : Int) : Option Nat :=
  let n : Int := l.length
  let j : Int := if i < 0 then i + n else i
  if j < 0 ∨ n ≤ j then none else some j.toNat

/-- The per-URI behaviour of the store API as seen by the location-list
proxy: the size query used by `_check_location_uri`, the outcome of
`delete_image_from_backend` (immediate or delayed, per the configuration
switch), and the outcome of `get_from_backend` (data plus size). -/
structure StoreEnv where
  get_size : String → Except PyExc Int
  delete_image : String → Except PyExc Unit
  get_backend_data : String → Except PyExc (String × Int)

/-- Embedding of `_check_location_uri` (store/__init__.py lines 411-427):
queries the size of the URI from its backend; a non-positive size, an
UnknownScheme or a NotFound failure make the location invalid and raise
BadStoreUri; any other exception from the size query propagates. -/
def check_location_uri (env : StoreEnv) (uri : String) : Except PyExc Unit :=
  match env.get_size uri with
  | .ok size => if size > 0 then .ok () else .error (.BadStoreUri ("Invalid location: " ++ uri))
  | .error (.UnknownScheme _) => .error (.BadStoreUri ("Invalid location: " ++ uri))
  | .error (.NotFound _) => .error (.BadStoreUri ("Invalid location: " ++ uri))
  | .error e => .error e

/-- Validation loop over a list of locations, as run by `extend`,
`__iadd__` and `_locations_proxy.set_attr`: checks each URL in order and
raises at the first invalid one. -/
def check_locations (env : StoreEnv) : List LocationRecord → Except PyExc Unit
  | [] => .ok ()
  | loc :: rest =>
    match check_location_uri env loc.url with
    | .ok _ => check_locations env rest
    | .error e => .error e

/-- Embedding of `StoreLocations.append`: validates the new URL, then
appends; a validation failure leaves the list untouched. -/
def StoreLocations.append (env : StoreEnv) (value : List LocationRecord)
    (location : LocationRecord) : Except PyExc Unit × List LocationRecord :=
  match check_location_uri env location.url with
  | .ok _ => (.ok (), value ++ [location])
  | .error e => (.error e, value)

/-- Embedding of `StoreLocations.insert`: validates the new URL, then
inserts at the (Python-normalised) position. -/
def StoreLocations.insert (env : StoreEnv) (value : List LocationRecord)
    (i : Int) (location : LocationRecord) : Except PyExc Unit × List LocationRecord :=
  match check_location_uri env location.url with
  | .ok _ => (.ok (), pyInsert value i location)
  | .error e => (.error e, value)

/-- Embedding of `StoreLocations.pop` (store/__init__.py lines 480-490):
removes the entry at `i` speculatively, invokes
`delete_image_from_backend` for its URL, and on failure re-raises after
reinserting with `self.value.insert(i, location)` on the shortened
list. -/
def StoreLocations.pop (env : StoreEnv) (value : List LocationRecord)
    (i : Int) : Except PyExc LocationRecord × List LocationRecord :=
  match pyPop value i with
  | none => (.error (.Other "IndexError"), value)
  | some (location, rest) =>
    match env.delete_image location.url with
    | .ok _ => (.ok location, rest)
    | .error e => (.error e, pyInsert rest i location)

/-- The operand of `extend` and `__iadd__`: either another
`StoreLocations` proxy (carrying its underlying list) or a plain iterable
of location records. -/
inductive LocOperand where
  | storeLocs (l : List LocationRecord)
  | plainList (l : List LocationRecord)

/-- Embedding of `StoreLocations.extend` (lines 464-473): a
`StoreLocations` operand is concatenated without any validation; any
other iterable is materialised and each entry validated before the
concatenation happens. -/
def StoreLocations.extend (env : StoreEnv) (value : List LocationRecord)
    (other : LocOperand) : Except PyExc Unit × List LocationRecord :=
  match other with
  | .storeLocs l => (.ok (), value ++ l)
  | .plainList l =>
    match check_locations env l with
    | .ok _ => (.ok (), value ++ l)
    | .error e => (.error e, value)

/-- Embedding of `StoreLocations.__iadd__` (lines 545-555): same shape as
`extend`, branching on whether the operand is a `StoreLocations`. -/
def StoreLocations.iadd (env : StoreEnv) (value : List LocationRecord)
    (other : LocOperand) : Except PyExc Unit × List LocationRecord :=
  match other with
  | .storeLocs l => (.ok (), value ++ l)
  | .plainList l =>
    match check_locations env l with
    | .ok _ => (.ok (), value ++ l)
    | .error e => (.error e, value)

/-- Embedding of `StoreLocations.__setitem__` (lines 513-516): validates
the new URL, then performs the Python item assignment. -/
def StoreLocations.setitem (env : StoreEnv) (value : List LocationRecord)
    (i : Int) (location : LocationRecord) : Except PyExc Unit × List LocationRecord :=
  match check_location_uri env location.url with
  | .error e => (.error e, value)
  | .ok _ =>
    match pyIndex value i with
    | some j => (.ok (), value.set j location)
    | none => (.error (.Other "IndexError"), value)

/-- Rendering of a location list used in the Invalid message of
`set_attr`; the Python repr of the list is abstracted to its URLs. -/
def locations_repr (l : List LocationRecord) : String :=
  String.intercalate ", " (l.map (fun loc => loc.url))

/-- Embedding of `_locations_proxy.set_attr` (lines 587-600) restricted
to list-valued assignments: equal values are a silent no-op; a differing
value is rejected with Invalid when the current list is non-empty;
otherwise every entry is validated before the attribute is replaced. -/
def set_attr (env : StoreEnv) (ori_value value : List LocationRecord) :
    Except PyExc Unit × List LocationRecord :=
  if ori_value = value then (.ok (), ori_value)
  else if 0 < ori_value.length then
    (.error (.Invalid ("Original locations is not empty: " ++ locations_repr ori_value)), ori_value)
  else
    match check_locations env value with
    | .ok _ => (.ok (), value)
    | .error e => (.error e, ori_value)

/-- Embedding of the scheme slicing in `get_store_from_uri` (lines
212-221): the scheme is `uri[0:uri.find(chr(47)) - 1]`, with Python
semantics for a missing separator (find returns -1, so the slice then
drops the last two characters). -/
def py_find_slash (s : String) : Int :=
  match s.toList.findIdx? (fun c => c = '/') with
  | some k => (k : Int)
  | none => -1

/-- Python slice `s[0:k]` for an `Int` bound `k`: a negative bound counts
from the end (clamped at 0), a bound past the end is clamped to the
length. -/
def pySliceTo (s : String) (k : Int) : String :=
  let n : Int := s.length
  let stop : Nat := if k < 0 then (n + k).toNat else (min k n).toNat
  (s.toList.take stop).asString

/-- The scheme substring extracted from a URI by `get_store_from_uri`. -/
def uri_scheme (uri : String) : String :=
  pySliceTo uri (py_find_slash uri - 1)

/-- Outcome of a backend driver `delete` call: success, the Python
NotImplementedError signal for a driver without delete capability, or any
raised exception. -/
inductive StoreDeleteRes where
  | ok
  | notImplemented
  | raises (e : PyExc)

/-- The environment of the immediate-delete chain: the set of registered
schemes (the keys of SCHEME_TO_CLS_MAP) and the per-URI outcome of the
resolved backend driver delete. -/
structure DeleteEnv where
  schemes : List String
  store_delete : String → StoreDeleteRes

/-- Embedding of `delete_from_backend` (lines 245-253) together with the
scheme resolution of `get_store_from_scheme` (lines 200-209): an
unregistered scheme raises UnknownScheme; a driver without delete
capability raises StoreDeleteNotSupported; other driver exceptions
propagate.  The location parsing step lives in `glance.store.location`,
outside the sources at hand; per the spec it fails on exactly the
unregistered schemes, which this embedding reports through the same
UnknownScheme branch. -/
def delete_from_backend (env : DeleteEnv) (uri : String) : Except PyExc Unit :=
  if env.schemes.contains (uri_scheme uri) then
    match env.store_delete uri with
    | .ok => .ok ()
    | .notImplemented => .error .StoreDeleteNotSupported
    | .raises e => .error e
  else .error (.UnknownScheme (uri_scheme uri))

/-- Embedding of `safe_delete_from_backend` (lines 268-281): absorbs (by
logging) exactly NotFound, StoreDeleteNotSupported and the module-local
UnsupportedBackend; every other exception propagates to the caller. -/
def safe_delete_from_backend (env : DeleteEnv) (uri : String) : Except PyExc Unit :=
  match delete_from_backend env uri with
  | .ok _ => .ok ()
  | .error (.NotFound _) => .ok ()
  | .error .StoreDeleteNotSupported => .ok ()
  | .error .UnsupportedBackend => .ok ()
  | .error e => .error e

/-- One file of the scrubber queue directory: its text contents, its
permission bits and its modification time (seconds, fractional values
allowed since Python time.time returns a float, embedded as a
rational). -/
structure QueueFileEnt where
  contents : String
  mode : Nat
  mtime : ℚ
deriving DecidableEq

/-- The queue directory, as a list of (file name, file) pairs; the file
name is `str(image_id)`. -/
abbrev ScrubQueue : Type := List (String × QueueFileEnt)

/-- Configuration and clock of the delayed-delete scheduler. -/
structure SchedEnv where
  scrub_time : Int
  now : ℚ
  metadata_encryption_key : Option String
  urlsafe_encrypt : String → String → String

/-- Python `int()` on a rational: truncation toward zero. -/
def py_int (q : ℚ) : Int :=
  if 0 ≤ q then q.floor else -((-q).floor)

/-- Whether the queue directory already holds a file for this image id. -/
def queue_has (q : ScrubQueue) (image_id : String) : Bool :=
  q.any (fun p => p.1 = image_id)

/-- Embedding of `schedule_delayed_delete_from_backend` (lines 284-301):
computes the scheduled time as now plus the configured delay, raises
Duplicate when a queue file for the image id already exists, and
otherwise writes a single file holding the (optionally encrypted) URI and
the truncated scheduled time, with mode 0o600 and mtime stamped to the
scheduled time. -/
def schedule_delayed_delete_from_backend (env : SchedEnv) (q : ScrubQueue)
    (uri : String) (image_id : String) : Except PyExc Unit × ScrubQueue :=
  let delete_time : ℚ := env.now + (env.scrub_time : ℚ)
  if queue_has q image_id then
    (.error (.Duplicate ("Image id " ++ image_id ++ " already queued for delete")), q)
  else
    let uri2 : String :=
      match env.metadata_encryption_key with
      | some key => env.urlsafe_encrypt key uri
      | none => uri
    (.ok (), q ++ [(image_id,
      { contents := uri2 ++ "\n" ++ toString (py_int delete_time)
        mode := 384
        mtime := delete_time })])

/-- Inner loop of `ImageProxy.get_data` (lines 656-671): tries each
location in order, returns the data of the first backend fetch that
succeeds, remembers the last error otherwise, and re-raises it after the
loop.  The second component records the URIs for which a backend fetch
was attempted, in order. -/
def get_data_go (env : StoreEnv) :
    List LocationRecord → Option PyExc → Except PyExc String × List String
  | [], none => (.error (.Other "TypeError"), [])
  | [], some e => (.error e, [])
  | loc :: rest, _ =>
    match env.get_backend_data loc.url with
    | .ok d => (.ok d.1, [loc.url])
    | .error e =>
      let r := get_data_go env rest (some e)
      (r.1, loc.url :: r.2)

/-- Embedding of `ImageProxy.get_data` (lines 653-671): an image with no
locations raises NotFound before any backend is consulted; otherwise the
locations are tried in order. -/
def get_data (env : StoreEnv) (locations : List LocationRecord) :
    Except PyExc String × List String :=
  if locations.isEmpty then (.error (.NotFound "No image data could be found"), [])
  else get_data_go env locations none

mutual

/-- A Python value as it can appear inside backend-returned metadata:
a dict, a list, a unicode string, or a value of any other type (carrying
the printed name of that type). -/
inductive MetaVal where
  | mdict (entries : MetaEntries)
  | mlist (items : MetaItems)
  | municode (s : String)
  | mother (tname : String)

/-- The entries of a metadata dict, in iteration order. -/
inductive MetaEntries where
  | nil
  | cons (key : String) (v : MetaVal) (rest : MetaEntries)

/-- The items of a metadata list. -/
inductive MetaItems where
  | nil
  | cons (v : MetaVal) (rest : MetaItems)

end

mutual

/-- Embedding of `_check_meta_data` (lines 311-324): a dict recurses into
its values with the dict key as the reported key path, a list recurses
with an index-suffixed key path, a unicode value is accepted, and any
other type raises BackendException naming the key path. -/
def check_meta_data : MetaVal → String → Except PyExc Unit
  | .mdict entries, _ => check_meta_entries entries
  | .mlist items, key => check_meta_items items key 0
  | .municode _, _ => .ok ()
  | .mother tname, key =>
    .error (.BackendException ("The image metadata key " ++ key ++
      " has an invalid type of " ++ tname ++
      ".  Only dict, list, and unicode are supported."))

/-- The dict loop of `_check_meta_data`. -/
def check_meta_entries : MetaEntries → Except PyExc Unit
  | .nil => .ok ()
  | .cons key v rest =>
    match check_meta_data v key with
    | .ok _ => check_meta_entries rest
    | .error e => .error e

/-- The list loop of `_check_meta_data`, threading the running index into
the reported key path. -/
def check_meta_items : MetaItems → String → Nat → Except PyExc Unit
  | .nil, _, _ => .ok ()
  | .cons v rest, key, ndx =>
    match check_meta_data v (key ++ "[" ++ toString ndx ++ "]") with
    | .ok _ => check_meta_items rest key (ndx + 1)
    | .error e => .error e

end

mutual

/-- Stated from the spec for comparison with the code: a metadata value
is acceptable when it is recursively built from mappings, ordered
sequences and text only. -/
def specMetaValueOk : MetaVal → Bool
  | .mdict entries => specMetaEntriesOk entries
  | .mlist items => specMetaItemsOk items
  | .municode _ => true
  | .mother _ => false

/-- All values of a dict are acceptable. -/
def specMetaEntriesOk : MetaEntries → Bool
  | .nil => true
  | .cons _ v rest => specMetaValueOk v && specMetaEntriesOk rest

/-- All items of a list are acceptable. -/
def specMetaItemsOk : MetaItems → Bool
  | .nil => true
  | .cons v rest => specMetaValueOk v && specMetaItemsOk rest

end

/-- Stated from the spec for comparison with the code: the whole
metadata return is acceptable when it is None, or a mapping all of whose
nested values are acceptable. -/
def spec_metadata_accepted : Option MetaVal → Bool
  | none => true
  | some (.mdict entries) => specMetaEntriesOk entries
  | some _ => false

/-- The quadruple returned by a backend driver `add` call. -/
structure StoreAddResult where
  location : String
  size : Int
  checksum : String
  metadata : Option MetaVal

/-- Embedding of `store_add_to_backend` (lines 327-357): calls the driver
add (whose result is the argument), then validates the returned metadata:
None passes, a non-dict raises BackendException, and a dict is run
through `_check_meta_data`, whose failure is re-wrapped in a
BackendException mentioning the driver.  The Python repr of the store and
of the metadata inside the messages is abstracted to the store name. -/
def store_add_to_backend (store_name : String) (res : StoreAddResult) :
    Except PyExc StoreAddResult :=
  match res.metadata with
  | none => .ok res
  | some metadata =>
    match metadata with
    | .mdict _ =>
      match check_meta_data metadata "" with
      | .ok _ => .ok res
      | .error (.BackendException msg) =>
        .error (.BackendException ("A bad metadata structure was returned from the " ++
          store_name ++ " storage driver.  " ++ msg))
      | .error e => .error e
    | _ =>
      .error (.BackendException ("The storage driver " ++ store_name ++
        " returned invalid metadata.  This must be a dictionary type"))

/-- What the registry needs to know about an imported store class: an
identity for the class object, and the schemes its instances report. -/
structure StoreClsInfo where
  clsId : String
  schemes : List String
deriving DecidableEq

/-- The import environment of `create_stores`: resolving a configured
store entry to a class, with `none` embedding the NotFound failure of
`importutils.import_class`. -/
structure RegEnv where
  import_class : String → Option StoreClsInfo

/-- Modelled from the spec: `location.register_scheme_map` lives in
`glance.store.location`, outside the sources at hand; per section 4.1 it
merges scheme-to-entry bindings into the registry, later bindings
winning.  The registry is embedded as an association list from scheme to
class identity, updated in place. -/
def register_scheme_map (schemes : List String) (clsId : String)
    (reg : List (String × String)) : List (String × String) :=
  schemes.foldl (fun acc scheme =>
    (acc.filter (fun p => p.1 ≠ scheme)) ++ [(scheme, clsId)]) reg

/-- Python `str.strip()` on a configured entry: drops leading and
trailing whitespace. -/
def pyStrip (s : String) : String :=
  ((s.toList.dropWhile Char.isWhitespace).reverse.dropWhile Char.isWhitespace).reverse.asString

/-- The loop of `create_stores`: count of registered stores, the set of
already-registered classes (in first-seen order), and the scheme
registry. -/
def create_stores_go (env : RegEnv) :
    List String → Nat → List String → List (String × String) →
    Except PyExc (Nat × List String × List (String × String))
  | [], count, classes, reg => .ok (count, classes, reg)
  | entry :: rest, count, classes, reg =>
    let entry := pyStrip entry
    if entry = "" then create_stores_go env rest count classes reg
    else
      match env.import_class entry with
      | none =>
        .error (.BackendException ("Unable to load store. Could not find a class named " ++
          entry ++ "."))
      | some cls =>
        if cls.schemes = [] then
          .error (.BackendException ("Unable to register store " ++ cls.clsId ++
            ". No schemes associated with it."))
        else if cls.clsId ∈ classes then
          create_stores_go env rest count classes reg
        else
          create_stores_go env rest (count + 1) (classes ++ [cls.clsId])
            (register_scheme_map cls.schemes cls.clsId reg)

/-- Embedding of `create_stores` (lines 153-187): walks the configured
entries, skipping blank ones, importing each store class, rejecting a
class with no schemes, registering each class once (a repeated class is
skipped, logged, not an error) and returning the count of registered
stores. -/
def create_stores (env : RegEnv) (known_stores : List String) :
    Except PyExc (Nat × List String × List (String × String)) :=
  create_stores_go env known_stores 0 [] []

/-- The distinct-free list of class identities loaded from the configured
entries, ignoring blanks; used to state what `create_stores` counts. -/
def loaded_classes (env : RegEnv) (known_stores : List String) : List String :=
  known_stores.filterMap (fun e =>
    let e := pyStrip e
    if e = "" then none else (env.import_class e).map (fun c => c.clsId))

/-- Whether an embedded Python call returned rather than raised. -/
def exceptOk {α : Type} : Except PyExc α → Bool
  | .ok _ => true
  | .error _ => false

/-- A concrete location record used in witnesses and counterexamples. -/
def recA : LocationRecord := { url := "file://a", metadata := [] }

/-- A second concrete location record. -/
def recB : LocationRecord := { url := "file://b", metadata := [] }

/-- A concrete location record whose backend reports size zero under
`cenvBad`. -/
def recBad : LocationRecord := { url := "bad://x", metadata := [] }

/-- A store environment whose backend delete always raises NotFound. -/
def cenvDel : StoreEnv :=
  { get_size := fun _ => .ok 1
    delete_image := fun _ => .error (.NotFound "gone")
    get_backend_data := fun _ => .error (.NotFound "gone") }

/-- A store environment whose size query reports zero for every URI, so
every location is invalid. -/
def cenvBad : StoreEnv :=
  { get_size := fun _ => .ok 0
    delete_image := fun _ => .ok ()
    get_backend_data := fun _ => .error (.NotFound "gone") }

/-- A store environment where every operation succeeds. -/
def cenvOk : StoreEnv :=
  { get_size := fun _ => .ok 42
    delete_image := fun _ => .ok ()
    get_backend_data := fun _ => .ok ("d", 42) }

/-- A store environment whose backend fetch fails for every URI, with
distinct errors for the two concrete records. -/
def cenvFetch : StoreEnv :=
  { get_size := fun _ => .ok 42
    delete_image := fun _ => .ok ()
    get_backend_data := fun u =>
      if u = "file://a" then .error (.NotFound "m1")
      else .error (.UnknownScheme "s") }

/-- A delete environment with no registered schemes. -/
def cDelNone : DeleteEnv :=
  { schemes := [], store_delete := fun _ => .ok }

/-- A delete environment whose driver lacks delete capability. -/
def cDelNI : DeleteEnv :=
  { schemes := ["file"], store_delete := fun _ => .notImplemented }

/-- A concrete scheduler environment: ten-second delay, unencrypted. -/
def cSched : SchedEnv :=
  { scrub_time := 10
    now := 100
    metadata_encryption_key := none
    urlsafe_encrypt := fun _ u => u }

/-- The accepted example metadata of the spec, with text values. -/
def meta_good : MetaVal :=
  .mdict (.cons "a"
    (.mlist (.cons (.municode "b")
      (.cons (.mdict (.cons "c" (.municode "d") .nil)) .nil))) .nil)

/-- The rejected example metadata of the spec: a float nested value. -/
def meta_bad : MetaVal :=
  .mdict (.cons "a" (.mother "float") .nil)

/-- A driver add result carrying the accepted example metadata. -/
def res_good : StoreAddResult :=
  { location := "file://a", size := 42, checksum := "c", metadata := some meta_good }

/-- A driver add result carrying the rejected example metadata. -/
def res_bad : StoreAddResult :=
  { location := "file://a", size := 42, checksum := "c", metadata := some meta_bad }

/-- A registry import environment knowing a single store class. -/
def cReg : RegEnv :=
  { import_class := fun e =>
      if e = "x.Store" then some { clsId := "x.Store", schemes := ["file"] } else none }

/-- A configured store list naming the same class twice (modulo
whitespace stripping). -/
def cKnown : List String := ["x.Store", " x.Store "]

theorem insertAt_popAt {α : Type} :
    ∀ (l : List α) (j : Nat) (x : α) (r : List α),
      popAt l j = some (x, r) → insertAt r j x = l
  | [], j, x, r => by simp [popAt]
  | a :: l, 0, x, r => by
    intro h
    simp only [popAt, Option.some.injEq, Prod.mk.injEq] at h
    rw [← h.1, ← h.2]
    cases l <;> rfl
  | a :: l, j + 1, x, r => by
    intro h
    match hp : popAt l j with
    | none => rw [popAt, hp] at h; simp at h
    | some (y, r2) =>
      rw [popAt, hp] at h
      simp only [Option.map_some', Option.some.injEq, Prod.mk.injEq] at h
      rw [← h.1, ← h.2, insertAt]
      rw [insertAt_popAt l j y r2 hp]

/-- Claim C1 (amended): when the entry at a non-negative index i is
removed via pop and the backend delete raises, the entry is reinserted at
index i, restoring the original list in length, content and order, and
the original error is re-raised. -/
theorem claim_C1_theorem (env : StoreEnv) (value : List LocationRecord) (i : Int)
    (loc : LocationRecord) (rest : List LocationRecord) (e : PyExc)
    (h0 : 0 ≤ i) (hpop : pyPop value i = some (loc, rest))
    (hdel : env.delete_image loc.url = .error e) :
    StoreLocations.pop env value i = (.error e, value) := by
  have hi : ¬ i < 0 := not_lt.mpr h0
  have hpop2 := hpop
  simp only [pyPop, hi, if_false] at hpop2
  split at hpop2
  · exact absurd hpop2 (by simp)
  · have hins : pyInsert rest i loc = value := by
      simp only [pyInsert, hi, if_false]
      exact insertAt_popAt value i.toNat loc rest hpop2
    simp only [StoreLocations.pop, hpop, hdel, hins]

/-- Claim C1 witness: a concrete successful rollback at index 0 of a
two-element list whose backend delete raises NotFound. -/
theorem claim_C1_witness :
    (0 : Int) ≤ 0 ∧
    StoreLocations.pop cenvDel [recA, recB] 0 = (.error (.NotFound "gone"), [recA, recB]) :=
  ⟨by decide,
   claim_C1_theorem cenvDel [recA, recB] 0 recA [recB] (.NotFound "gone")
     (by decide) rfl rfl⟩

/-- Claim C1 counterexample: popping with the default index -1 from a
two-element list under a failing backend delete re-raises the error but
reinserts the entry one position too early, so the resulting list has the
original entries in a different order. -/
theorem claim_C1_counterexample :
    StoreLocations.pop cenvDel [recA, recB] (-1) = (.error (.NotFound "gone"), [recB, recA]) ∧
    ([recB, recA] : List LocationRecord) ≠ [recA, recB] :=
  ⟨rfl, by decide⟩

/-- Claim C2: appending or inserting a location whose URL has a
non-positive backend size, or whose resolution raises UnknownScheme or
NotFound, fails with BadStoreUri and leaves the list unmodified. -/
theorem claim_C2_theorem (env : StoreEnv) (value : List LocationRecord)
    (loc : LocationRecord)
    (h : (∃ s, env.get_size loc.url = .ok s ∧ s ≤ 0) ∨
         (∃ sch, env.get_size loc.url = .error (.UnknownScheme sch)) ∨
         (∃ m, env.get_size loc.url = .error (.NotFound m))) :
    StoreLocations.append env value loc =
      (.error (.BadStoreUri ("Invalid location: " ++ loc.url)), value) ∧
    ∀ i, StoreLocations.insert env value i loc =
      (.error (.BadStoreUri ("Invalid location: " ++ loc.url)), value) := by
  have hchk : check_location_uri env loc.url =
      .error (.BadStoreUri ("Invalid location: " ++ loc.url)) := by
    rcases h with ⟨s, hs, hle⟩ | ⟨sch, hsch⟩ | ⟨m, hm⟩
    · simp only [check_location_uri, hs]
      rw [if_neg (not_lt.mpr hle)]
    · simp only [check_location_uri, hsch]
    · simp only [check_location_uri, hm]
  refine ⟨?_, fun i => ?_⟩
  · simp only [StoreLocations.append, hchk]
  · simp only [StoreLocations.insert, hchk]

/-- Claim C2 witness: a concrete zero-size location rejected by append
with the list left empty. -/
theorem claim_C2_witness :
    StoreLocations.append cenvBad [] recBad =
      (.error (.BadStoreUri ("Invalid location: " ++ recBad.url)), []) :=
  (claim_C2_theorem cenvBad [] recBad (.inl ⟨0, rfl, le_refl 0⟩)).1

/-- Claim C3 counterexample: assigning to a record with a non-empty
current list a replacement list equal to it raises no InvalidStateError
at all; the assignment is silently skipped. -/
theorem claim_C3_counterexample :
    set_attr cenvOk [recA] [recA] = (.ok (), [recA]) ∧
    ([recA] : List LocationRecord) ≠ [] :=
  ⟨rfl, by decide⟩

/-- Claim C3 (amended): assigning a replacement list that differs from
the current one fails with Invalid and leaves the attribute unchanged
when the current list is non-empty; when the current list is empty, every
entry of the replacement is validated before the assignment commits, so a
validation failure leaves the attribute unchanged.  Assigning a list
equal to the current one is a silent no-op. -/
theorem claim_C3_theorem (env : StoreEnv) (ori_value value : List LocationRecord)
    (h : ori_value ≠ value) :
    (ori_value ≠ [] → set_attr env ori_value value =
      (.error (.Invalid ("Original locations is not empty: " ++ locations_repr ori_value)),
       ori_value)) ∧
    ∀ e, check_locations env value = .error e → ori_value = [] →
      set_attr env ori_value value = (.error e, ori_value) := by
  constructor
  · intro hne
    rw [set_attr, if_neg h, if_pos (List.length_pos.mpr hne)]
  · intro e he hori
    subst hori
    rw [set_attr, if_neg h, if_neg (by simp)]
    simp only [he]

/-- Claim C3 witness: replacing an empty list by a list holding one
invalid location fails and leaves the attribute empty. -/
theorem claim_C3_witness :
    set_attr cenvBad [] [recBad] =
      (.error (.BadStoreUri ("Invalid location: " ++ recBad.url)), []) :=
  (claim_C3_theorem cenvBad [] [recBad] (by decide)).2
    (.BadStoreUri ("Invalid location: " ++ recBad.url)) rfl rfl

/-- Claim C4 counterexample: a location that fails URL validation still
becomes visible in the list when supplied through extend or in-place
concatenation with a StoreLocations-typed operand, because that operand
type skips validation. -/
theorem claim_C4_counterexample :
    check_location_uri cenvBad recBad.url =
      .error (.BadStoreUri "Invalid location: bad://x") ∧
    StoreLocations.extend cenvBad [] (.storeLocs [recBad]) = (.ok (), [recBad]) ∧
    StoreLocations.iadd cenvBad [] (.storeLocs [recBad]) = (.ok (), [recBad]) :=
  ⟨rfl, rfl, rfl⟩

/-- Claim C4 (amended): append, insert and item assignment always
validate the new URL before it becomes visible, and extend and in-place
concatenation validate every supplied entry when the operand is not a
StoreLocations; a StoreLocations operand is concatenated without
re-validation. -/
theorem claim_C4_theorem (env : StoreEnv) (value : List LocationRecord) (i : Int)
    (loc : LocationRecord) (l : List LocationRecord) (e1 e2 : PyExc)
    (h1 : check_location_uri env loc.url = .error e1)
    (h2 : check_locations env l = .error e2) :
    StoreLocations.append env value loc = (.error e1, value) ∧
    StoreLocations.insert env value i loc = (.error e1, value) ∧
    StoreLocations.setitem env value i loc = (.error e1, value) ∧
    StoreLocations.extend env value (.plainList l) = (.error e2, value) ∧
    StoreLocations.iadd env value (.plainList l) = (.error e2, value) ∧
    (∀ l2, StoreLocations.extend env value (.storeLocs l2) = (.ok (), value ++ l2)) ∧
    (∀ l2, StoreLocations.iadd env value (.storeLocs l2) = (.ok (), value ++ l2)) := by
  refine ⟨?_, ?_, ?_, ?_, ?_, fun l2 => rfl, fun l2 => rfl⟩
  · simp only [StoreLocations.append, h1]
  · simp only [StoreLocations.insert, h1]
  · simp only [StoreLocations.setitem, h1]
  · simp only [StoreLocations.extend, h2]
  · simp only [StoreLocations.iadd, h2]

/-- Claim C4 witness: a concrete invalid location rejected by the
plain-operand extend path with the list left unchanged. -/
theorem claim_C4_witness :
    StoreLocations.extend cenvBad [] (.plainList [recBad]) =
      (.error (.BadStoreUri ("Invalid location: " ++ recBad.url)), []) :=
  (claim_C4_theorem cenvBad [] 0 recBad [recBad]
    (.BadStoreUri ("Invalid location: " ++ recBad.url))
    (.BadStoreUri ("Invalid location: " ++ recBad.url)) rfl rfl).2.2.2.1

/-- Claim C5 counterexample: deleting a URI whose scheme is not
registered raises UnknownScheme out of the best-effort delete path; the
handlers absorb only NotFound, StoreDeleteNotSupported and
UnsupportedBackend, so the overall record deletion can raise. -/
theorem claim_C5_counterexample :
    safe_delete_from_backend cDelNone "swift://x/y" = .error (.UnknownScheme "swift") :=
  rfl

/-- Claim C5 (amended): the best-effort delete path absorbs (logs without
raising) delete-not-supported, not-found and unsupported-backend failures
of the backend delete; unknown-scheme failures are not absorbed. -/
theorem claim_C5_theorem (env : DeleteEnv) (uri : String)
    (h : delete_from_backend env uri = .ok () ∨
         delete_from_backend env uri = .error .StoreDeleteNotSupported ∨
         delete_from_backend env uri = .error .UnsupportedBackend ∨
         ∃ m, delete_from_backend env uri = .error (.NotFound m)) :
    safe_delete_from_backend env uri = .ok () := by
  rcases h with h | h | h | ⟨m, h⟩ <;> simp only [safe_delete_from_backend, h]

/-- Claim C5 witness: a driver without delete capability is absorbed. -/
theorem claim_C5_witness :
    safe_delete_from_backend cDelNI "file://a/b" = .ok () :=
  claim_C5_theorem cDelNI "file://a/b" (.inr (.inl rfl))

mutual

theorem check_meta_ok : ∀ (v : MetaVal) (k : String),
    exceptOk (check_meta_data v k) = specMetaValueOk v
  | .mdict entries, _ => by
    simp only [check_meta_data, specMetaValueOk]
    exact check_entries_ok entries
  | .mlist items, key => by
    simp only [check_meta_data, specMetaValueOk]
    exact check_items_ok items key 0
  | .municode s, _ => rfl
  | .mother t, key => rfl

theorem check_entries_ok : ∀ (es : MetaEntries),
    exceptOk (check_meta_entries es) = specMetaEntriesOk es
  | .nil => rfl
  | .cons key v rest => by
    have h1 := check_meta_ok v key
    simp only [check_meta_entries, specMetaEntriesOk]
    cases hc : check_meta_data v key with
    | ok u =>
      rw [hc] at h1
      simp only [exceptOk] at h1
      rw [← h1, Bool.true_and]
      exact check_entries_ok rest
    | error e =>
      rw [hc] at h1
      simp only [exceptOk] at h1
      rw [← h1]
      simp [exceptOk]

theorem check_items_ok : ∀ (its : MetaItems) (k : String) (n : Nat),
    exceptOk (check_meta_items its k n) = specMetaItemsOk its
  | .nil, _, _ => rfl
  | .cons v rest, k, n => by
    have h1 := check_meta_ok v (k ++ "[" ++ toString n ++ "]")
    simp only [check_meta_items, specMetaItemsOk]
    cases hc : check_meta_data v (k ++ "[" ++ toString n ++ "]") with
    | ok u =>
      rw [hc] at h1
      simp only [exceptOk] at h1
      rw [← h1, Bool.true_and]
      exact check_items_ok rest k (n + 1)
    | error e =>
      rw [hc] at h1
      simp only [exceptOk] at h1
      rw [← h1]
      simp [exceptOk]

end

/-- Claim C6: store_add_to_backend succeeds exactly when the driver
metadata is None or a mapping whose nested values are recursively
mappings, ordered sequences or text; in particular the nested example
with text leaves is accepted, and a float nested value is rejected with
BackendException whose message names the offending key path. -/
theorem claim_C6_theorem :
    (∀ (store_name : String) (res : StoreAddResult),
      exceptOk (store_add_to_backend store_name res) = spec_metadata_accepted res.metadata) ∧
    store_add_to_backend "FakeStore" res_good = .ok res_good ∧
    store_add_to_backend "FakeStore" res_bad = .error (.BackendException
      "A bad metadata structure was returned from the FakeStore storage driver.  The image metadata key a has an invalid type of float.  Only dict, list, and unicode are supported.") ∧
    check_meta_data (.mother "float") "a" = .error (.BackendException
      "The image metadata key a has an invalid type of float.  Only dict, list, and unicode are supported.") := by
  refine ⟨?_, rfl, rfl, rfl⟩
  intro store_name res
  rcases res with ⟨loc, size, ck, meta⟩
  cases meta with
  | none => rfl
  | some m =>
    cases m with
    | mdict entries =>
      have h2 := check_meta_ok (.mdict entries) ""
      simp only [check_meta_data, specMetaValueOk] at h2
      simp only [store_add_to_backend, spec_metadata_accepted, check_meta_data]
      cases hc : check_meta_entries entries with
      | ok u =>
        rw [hc] at h2
        simp only [exceptOk] at h2 ⊢
        exact h2
      | error e =>
        rw [hc] at h2
        simp only [exceptOk] at h2
        rw [← h2]
        cases e <;> rfl
    | mlist items => rfl
    | municode s => rfl
    | mother t => rfl

/-- Claim C7: scheduling a delayed delete for a fresh record id succeeds
and writes exactly one queue file for that id, named by the id, holding
the (optionally encrypted) URI and the truncated scheduled time equal to
now plus the configured delay, with owner-only permissions 0o600 and the
modification time stamped to the scheduled time; scheduling again for the
same id fails with Duplicate and leaves the queue unchanged. -/
theorem claim_C7_theorem (env env2 : SchedEnv) (q : ScrubQueue)
    (uri uri2 image_id : String) (h : queue_has q image_id = false) :
    (schedule_delayed_delete_from_backend env q uri image_id).1 = .ok () ∧
    (schedule_delayed_delete_from_backend env q uri image_id).2 = q ++ [(image_id,
      { contents := (match env.metadata_encryption_key with
          | some key => env.urlsafe_encrypt key uri
          | none => uri) ++ "\n" ++ toString (py_int (env.now + (env.scrub_time : ℚ)))
        mode := 384
        mtime := env.now + (env.scrub_time : ℚ) })] ∧
    ((schedule_delayed_delete_from_backend env q uri image_id).2.filter
      (fun p => p.1 = image_id)).length = 1 ∧
    schedule_delayed_delete_from_backend env2
        (schedule_delayed_delete_from_backend env q uri image_id).2 uri2 image_id =
      (.error (.Duplicate ("Image id " ++ image_id ++ " already queued for delete")),
       (schedule_delayed_delete_from_backend env q uri image_id).2) := by
  have hmain : schedule_delayed_delete_from_backend env q uri image_id =
      (.ok (), q ++ [(image_id,
        { contents := (match env.metadata_encryption_key with
            | some key => env.urlsafe_encrypt key uri
            | none => uri) ++ "\n" ++ toString (py_int (env.now + (env.scrub_time : ℚ)))
          mode := 384
          mtime := env.now + (env.scrub_time : ℚ) })]) := by
    rw [schedule_delayed_delete_from_backend, if_neg (by simp [h])]
  refine ⟨by rw [hmain], by rw [hmain], ?_, ?_⟩
  · rw [hmain]
    have hq : q.filter (fun p => decide (p.1 = image_id)) = [] := by
      rw [List.filter_eq_nil_iff]
      intro p hp hdec
      have hmem : q.any (fun p => decide (p.1 = image_id)) = true :=
        List.any_eq_true.mpr ⟨p, hp, hdec⟩
      rw [queue_has] at h
      rw [h] at hmem
      exact Bool.false_ne_true hmem
    simp [List.filter_append, hq]
  · rw [hmain]
    rw [schedule_delayed_delete_from_backend, if_pos (by simp [queue_has])]

/-- Claim C7 witness: one concrete schedule on an empty queue leaves
exactly one queue file for the record id. -/
theorem claim_C7_witness :
    ((schedule_delayed_delete_from_backend cSched [] "file://a" "42").2.filter
      (fun p => p.1 = "42")).length = 1 :=
  (claim_C7_theorem cSched cSched [] "file://a" "file://b" "42" rfl).2.2.1

theorem get_data_go_cons (env : StoreEnv) (loc : LocationRecord)
    (rest : List LocationRecord) (acc : Option PyExc) :
    get_data_go env (loc :: rest) acc =
      match env.get_backend_data loc.url with
      | .ok d => (.ok d.1, [loc.url])
      | .error e =>
        ((get_data_go env rest (some e)).1, loc.url :: (get_data_go env rest (some e)).2) :=
  rfl

theorem get_data_go_all_fail (env : StoreEnv) :
    ∀ (locs : List LocationRecord) (h : locs ≠ []) (acc : Option PyExc) (e : PyExc),
      (∀ loc ∈ locs, ∃ e2, env.get_backend_data loc.url = .error e2) →
      env.get_backend_data ((locs.getLast h).url) = .error e →
      get_data_go env locs acc = (.error e, locs.map (fun l => l.url))
  | [], h, _, _, _, _ => absurd rfl h
  | [loc], h, acc, e, hall, hlast => by
    simp only [List.getLast_singleton] at hlast
    rw [get_data_go_cons, hlast]
    rfl
  | loc :: loc2 :: rest, h, acc, e, hall, hlast => by
    obtain ⟨e1, he1⟩ := hall loc (by simp)
    rw [List.getLast_cons (by simp)] at hlast
    have ih := get_data_go_all_fail env (loc2 :: rest) (by simp) (some e1) e
      (fun l hl => hall l (by simp [hl])) hlast
    rw [get_data_go_cons, he1]
    dsimp only
    rw [ih]
    rfl

theorem get_data_go_first_ok (env : StoreEnv) :
    ∀ (pre : List LocationRecord) (loc : LocationRecord) (post : List LocationRecord)
      (acc : Option PyExc) (d : String) (s : Int),
      (∀ p ∈ pre, ∃ e2, env.get_backend_data p.url = .error e2) →
      env.get_backend_data loc.url = .ok (d, s) →
      get_data_go env (pre ++ loc :: post) acc =
        (.ok d, pre.map (fun l => l.url) ++ [loc.url])
  | [], loc, post, acc, d, s, hpre, hok => by
    rw [List.nil_append, get_data_go_cons, hok]
    rfl
  | p :: pre, loc, post, acc, d, s, hpre, hok => by
    obtain ⟨e1, he1⟩ := hpre p (by simp)
    have ih := get_data_go_first_ok env pre loc post (some e1) d s
      (fun x hx => hpre x (by simp [hx])) hok
    rw [List.cons_append, get_data_go_cons, he1]
    dsimp only
    rw [ih]
    rfl

/-- Claim C8: on a non-empty location list, the fetch operation tries the
locations in list order, returns the byte stream of the first location
whose backend fetch succeeds, attempts exactly the locations up to that
point, and raises only when every location has failed, in which case the
error of the last location is the one raised. -/
theorem claim_C8_theorem (env : StoreEnv) (locs : List LocationRecord) (h : locs ≠ []) :
    (∀ e, (∀ loc ∈ locs, ∃ e2, env.get_backend_data loc.url = .error e2) →
      env.get_backend_data ((locs.getLast h).url) = .error e →
      get_data env locs = (.error e, locs.map (fun l => l.url))) ∧
    (∀ pre loc post d s, locs = pre ++ loc :: post →
      (∀ p ∈ pre, ∃ e2, env.get_backend_data p.url = .error e2) →
      env.get_backend_data loc.url = .ok (d, s) →
      get_data env locs = (.ok d, pre.map (fun l => l.url) ++ [loc.url])) := by
  constructor
  · intro e hall hlast
    rw [get_data, if_neg (by simp [h])]
    exact get_data_go_all_fail env locs h none e hall hlast
  · intro pre loc post d s hsplit hpre hok
    rw [get_data, if_neg (by simp [h]), hsplit]
    exact get_data_go_first_ok env pre loc post none d s hpre hok

/-- Claim C8 witness: both locations fail, so the error of the last one
is raised after both were attempted in order. -/
theorem claim_C8_witness :
    get_data cenvFetch [recA, recB] = (.error (.UnknownScheme "s"), ["file://a", "file://b"]) := by
  have hall : ∀ loc ∈ [recA, recB], ∃ e2, cenvFetch.get_backend_data loc.url = .error e2 := by
    intro loc hl
    cases hl with
    | head => exact ⟨.NotFound "m1", rfl⟩
    | tail _ hl2 =>
      cases hl2 with
      | head => exact ⟨.UnknownScheme "s", rfl⟩
      | tail _ hl3 => cases hl3
  exact (claim_C8_theorem cenvFetch [recA, recB] (by decide)).1 (.UnknownScheme "s") hall rfl

theorem create_stores_go_spec (env : RegEnv) :
    ∀ (l : List String) (count : Nat) (classes : List String) (reg : List (String × String))
      (n : Nat) (classes2 : List String) (reg2 : List (String × String)),
      create_stores_go env l count classes reg = .ok (n, classes2, reg2) →
      count = classes.length → classes.Nodup →
      n = classes2.length ∧ classes2.Nodup ∧
        classes2.toFinset = classes.toFinset ∪ (loaded_classes env l).toFinset := by
  intro l
  induction l with
  | nil =>
    intro count classes reg n c2 r2 hok hc hn
    simp only [create_stores_go, Except.ok.injEq, Prod.mk.injEq] at hok
    obtain ⟨h1, h2, h3⟩ := hok
    subst h1; subst h2
    exact ⟨hc, hn, by simp [loaded_classes]⟩
  | cons e rest ih =>
    intro count classes reg n c2 r2 hok hc hn
    rw [create_stores_go] at hok
    by_cases he : pyStrip e = ""
    · rw [if_pos he] at hok
      obtain ⟨g1, g2, g3⟩ := ih count classes reg n c2 r2 hok hc hn
      refine ⟨g1, g2, ?_⟩
      rw [g3]
      have hl : loaded_classes env (e :: rest) = loaded_classes env rest := by
        simp [loaded_classes, List.filterMap_cons, he]
      rw [hl]
    · rw [if_neg he] at hok
      cases him : env.import_class (pyStrip e) with
      | none => simp [him] at hok
      | some cls =>
        simp only [him] at hok
        by_cases hsch : cls.schemes = []
        · rw [if_pos hsch] at hok; exact absurd hok (by simp)
        · rw [if_neg hsch] at hok
          have hl : loaded_classes env (e :: rest) = cls.clsId :: loaded_classes env rest := by
            simp [loaded_classes, List.filterMap_cons, he, him]
          by_cases hmem : cls.clsId ∈ classes
          · rw [if_pos hmem] at hok
            obtain ⟨g1, g2, g3⟩ := ih count classes reg n c2 r2 hok hc hn
            refine ⟨g1, g2, ?_⟩
            rw [g3, hl]
            apply Finset.ext
            intro x
            simp only [Finset.mem_union, List.mem_toFinset, List.toFinset_cons,
              Finset.mem_insert]
            constructor
            · rintro (hx | hx)
              · exact .inl hx
              · exact .inr (.inr hx)
            · rintro (hx | rfl | hx)
              · exact .inl hx
              · exact .inl hmem
              · exact .inr hx
          · rw [if_neg hmem] at hok
            have hc2 : count + 1 = (classes ++ [cls.clsId]).length := by simp [hc]
            have hn2 : (classes ++ [cls.clsId]).Nodup := by
              simp [List.nodup_append, hn, hmem]
            obtain ⟨g1, g2, g3⟩ := ih (count + 1) (classes ++ [cls.clsId]) _ n c2 r2 hok hc2 hn2
            refine ⟨g1, g2, ?_⟩
            rw [g3, hl]
            apply Finset.ext
            intro x
            simp only [Finset.mem_union, List.mem_toFinset, List.toFinset_cons,
              Finset.mem_insert, List.mem_append, List.mem_singleton]
            constructor
            · rintro ((hx | rfl) | hx)
              · exact .inl hx
              · exact .inr (.inl rfl)
              · exact .inr (.inr hx)
            · rintro (hx | rfl | hx)
              · exact .inl (.inl hx)
              · exact .inl (.inr rfl)
              · exact .inr hx

/-- Claim C9: the registered-backend count returned by create_stores is
the number of distinct backend classes among the configured entries;
registering the same class a second time is skipped, not an error, and
does not increase the count. -/
theorem claim_C9_theorem (env : RegEnv) (known_stores : List String) (n : Nat)
    (classes : List String) (reg : List (String × String))
    (h : create_stores env known_stores = .ok (n, classes, reg)) :
    n = (loaded_classes env known_stores).toFinset.card := by
  obtain ⟨g1, g2, g3⟩ :=
    create_stores_go_spec env known_stores 0 [] [] n classes reg h rfl List.nodup_nil
  have hfs : classes.toFinset = (loaded_classes env known_stores).toFinset := by
    rw [g3]; simp
  rw [g1, ← List.toFinset_card_of_nodup g2, hfs]

/-- Claim C9 witness: a configured list naming the same class twice
registers it once and returns a count of one. -/
theorem claim_C9_witness :
    create_stores cReg cKnown = .ok (1, ["x.Store"], [("file", "x.Store")]) ∧
    (1 : Nat) = (loaded_classes cReg cKnown).toFinset.card :=
  ⟨rfl, claim_C9_theorem cReg cKnown 1 ["x.Store"] [("file", "x.Store")] rfl⟩

/-- Claim C10: fetching data of a record with an empty location list
raises NotFound at once, with no backend fetch attempted. -/
theorem claim_C10_theorem (env : StoreEnv) :
    get_data env [] = (.error (.NotFound "No image data could be found"), []) :=
  rfl

end GlanceStore
